import Mathlib

/-!
Verification of the screen-buffer model of the chrisduerr/alacritty fork.

The definitions below are a shallow embedding of the Rust sources:
  * `src/alacritty_terminal/src/grid/row.rs`   — the `Row<T>` line storage
  * `src/alacritty_terminal/src/term/cell.rs`  — the current `Cell`
  * `src/src/term/cell.rs`                     — the legacy `Cell`
  * `src/src/term/nonzero_chars.rs`            — the overflow handle table
  * `src/alacritty/src/display/color.rs`       — the palette resolver
  * `src/alacritty_terminal/src/sync.rs`       — the `FairMutex`

Rust `Vec<T>` is embedded as `List T`, `usize`/`Column` as `Nat`, fallible
or panicking paths as `Option`.
-/

namespace Alacritty

/-- The `GridCell` capability consumed by `Row<T>`: the cell emptiness
predicate (`grid::GridCell::is_empty`). -/
class GridCell (T : Type) where
  cellIsEmpty : T → Bool

export GridCell (cellIsEmpty)

/-- Embeds `Row<T>` from `src/alacritty_terminal/src/grid/row.rs`:
backing storage `inner: Vec<T>`, logical width `columns: usize`, and the
`template` cell standing for unmaterialized columns. -/
structure Row (T : Type) where
  inner : List T
  columns : Nat
  template : T
  deriving DecidableEq, Repr

namespace Row

variable {T : Type}

/-- `Row::new(columns, template)`: empty backing storage. -/
def new (columns : Nat) (template : T) : Row T :=
  { inner := [], columns := columns, template := template }

/-- `Row::from_vec(vec, template, columns)`. -/
def from_vec (vec : List T) (template : T) (columns : Nat) : Row T :=
  { inner := vec, columns := columns, template := template }

/-- `Row::grow(cols)`: `self.columns = cols.0`. -/
def grow (row : Row T) (cols : Nat) : Row T :=
  { row with columns := cols }

/-- `Row::reset(template)`: replace the template, clear the backing storage. -/
def reset (row : Row T) (template : T) : Row T :=
  { row with template := template, inner := [] }

/-- `Row::reset_from(at, template)`: replace the template, truncate the
backing storage to length `at`. -/
def reset_from (row : Row T) (a : Nat) (template : T) : Row T :=
  { row with template := template, inner := row.inner.take a }

/-- `Row::fill(size)`: push template copies until the backing storage holds
`size` cells, but only when `size <= self.columns`. -/
def fill (row : Row T) (size : Nat) : Row T :=
  if row.inner.length < size ∧ size ≤ row.columns then
    { row with inner := row.inner ++ List.replicate (size - row.inner.length) row.template }
  else row

/-- `Row::len()`: returns `self.columns`. -/
def len (row : Row T) : Nat :=
  row.columns

/-- Index of one past the last cell of `l` that fails `p`, or `0`:
`l.iter().rposition(|c| !p c).map(|i| i + 1).unwrap_or(0)`. -/
def rpositionEnd (p : T → Bool) (l : List T) : Nat :=
  match l.reverse.findIdx? (fun c => !p c) with
  | some j => l.length - j
  | none => 0

/-- `Row::shrink(cols)`: set `columns = cols`; when the backing storage is
longer, split it at `cols`, drop the empty tail of the removed suffix, and
return the trimmed suffix when non-empty. -/
def shrink [GridCell T] (row : Row T) (cols : Nat) : Row T × Option (List T) :=
  let row := { row with columns := cols }
  if row.inner.length ≤ cols then
    (row, none)
  else
    let new_row := row.inner.drop cols
    let index := rpositionEnd cellIsEmpty new_row
    let new_row := new_row.take index
    let row := { row with inner := row.inner.take cols }
    if new_row.isEmpty then (row, none) else (row, some new_row)

/-- `Row::front_split_off(at)`: fill up to `min(columns, at)`, subtract `at`
from `columns`, split the backing storage at `at`, keep the tail and return
the head. `none` embeds the panicking paths (the `usize` underflow in
`self.columns -= at` and the out-of-range `Vec::split_off`). -/
def front_split_off (row : Row T) (a : Nat) : Option (Row T × List T) :=
  let row := row.fill (min row.columns a)
  if a ≤ row.columns then
    if a ≤ row.inner.length then
      some ({ row with columns := row.columns - a, inner := row.inner.drop a },
            row.inner.take a)
    else none
  else none

/-- `Row::append(vec)`: extend the backing storage at the back and raise
`columns` to `max(inner.len(), columns)`. -/
def append (row : Row T) (vec : List T) : Row T :=
  let inner := row.inner ++ vec
  { row with inner := inner, columns := max inner.length row.columns }

/-- `Row::append_front(vec)`: extend the backing storage at the front and
raise `columns` to `max(inner.len(), columns)`. -/
def append_front (row : Row T) (vec : List T) : Row T :=
  let inner := vec ++ row.inner
  { row with inner := inner, columns := max inner.length row.columns }

/-- `Index<Column> for Row<T>`: `self.inner.get(index.0).unwrap_or(&self.template)`. -/
def index (row : Row T) (i : Nat) : T :=
  row.inner.getD i row.template

/-- `IndexMut<Column> for Row<T>`: `self.fill(index.0 + 1)` followed by
`&mut self.inner[index.0]`. The result is the filled row when the final
slice access is in bounds, `none` when it would panic. -/
def index_mut (row : Row T) (i : Nat) : Option (Row T) :=
  let row := row.fill (i + 1)
  if i < row.inner.length then some row else none

/-- The storage invariant claimed by the spec: the backing length never
exceeds the logical column count. -/
def Inv (row : Row T) : Prop :=
  row.inner.length ≤ row.columns

instance {row : Row T} : Decidable (Inv row) := by
  unfold Inv; infer_instance

end Row

/-! The attribute bitflags of `src/alacritty_terminal/src/term/cell.rs`
(`Flags: u16`). The legacy `src/src/term/cell.rs` declares the same bits
minus `STRIKEOUT`. -/

namespace Flags

def INVERSE : Nat := 0b0000000001
def BOLD : Nat := 0b0000000010
def ITALIC : Nat := 0b0000000100
def BOLD_ITALIC : Nat := 0b0000000110
def UNDERLINE : Nat := 0b0000001000
def WRAPLINE : Nat := 0b0000010000
def WIDE_CHAR : Nat := 0b0000100000
def WIDE_CHAR_SPACER : Nat := 0b0001000000
def DIM : Nat := 0b0010000000
def DIM_BOLD : Nat := 0b0010000010
def HIDDEN : Nat := 0b0100000000
def STRIKEOUT : Nat := 0b1000000000

/-- `bitflags` `intersects`: some bit of `mask` is set in `f`. -/
def intersects (f mask : Nat) : Bool :=
  f &&& mask ≠ 0

/-- `bitflags` `contains`: every bit of `mask` is set in `f`. -/
def hasAll (f mask : Nat) : Bool :=
  f &&& mask = mask

end Flags

/-- Modelled from the spec: the `NamedColor` enum lives in
`alacritty_terminal/src/ansi.rs`, which is not part of the provided
sources. Constructors follow the spec's §3 slot list: 8 standard colors,
8 bright colors, the semantic foreground/background slots, the dim
variants, and the bright-foreground slot. -/
inductive NamedColor where
  | Black | Red | Green | Yellow | Blue | Magenta | Cyan | White
  | BrightBlack | BrightRed | BrightGreen | BrightYellow
  | BrightBlue | BrightMagenta | BrightCyan | BrightWhite
  | Foreground | Background
  | DimBlack | DimRed | DimGreen | DimYellow
  | DimBlue | DimMagenta | DimCyan | DimWhite
  | BrightForeground | DimForeground
  deriving DecidableEq, Repr

/-- An RGB color value (`alacritty_terminal::term::color::Rgb`); channels
are `u8` values. -/
structure Rgb where
  r : Nat
  g : Nat
  b : Nat
  deriving DecidableEq, Repr

/-- `Rgb::default()`: black. -/
def Rgb.default : Rgb := ⟨0, 0, 0⟩

/-- Modelled from the spec: the `Color` variant type of `ansi.rs` (not in
the provided sources) — `Named(enum value)`, `Spec(r,g,b)` or
`Indexed(0-255)` per spec §6. -/
inductive Color where
  | Named (n : NamedColor)
  | Spec (rgb : Rgb)
  | Indexed (i : Nat)
  deriving DecidableEq, Repr

/-- `MAX_ZEROWIDTH_CHARS` from `src/alacritty_terminal/src/term/cell.rs`. -/
def MAX_ZEROWIDTH_CHARS : Nat := 5

/-- The current `Cell` of `src/alacritty_terminal/src/term/cell.rs`:
primary code point, colors, attribute flags, and the inline
`[char; MAX_ZEROWIDTH_CHARS]` overflow array (padding value space). -/
structure Cell where
  c : Char
  fg : Color
  bg : Color
  flags : Nat
  extra : List Char
  deriving DecidableEq, Repr

namespace Cell

/-- `Cell::new(c, fg, bg)`: empty flags, all-padding overflow array. -/
def new (c : Char) (fg bg : Color) : Cell :=
  { c := c, fg := fg, bg := bg, flags := 0,
    extra := List.replicate MAX_ZEROWIDTH_CHARS ' ' }

/-- `Cell::default()`. -/
def default : Cell :=
  new ' ' (Color.Named NamedColor.Foreground) (Color.Named NamedColor.Background)

/-- `GridCell::is_empty` for the current `Cell`
(`src/alacritty_terminal/src/term/cell.rs`, lines 64–77). -/
def is_empty (cell : Cell) : Bool :=
  (cell.c == ' ' || cell.c == '\t')
    && cell.extra.headD ' ' == ' '
    && cell.bg == Color.Named NamedColor.Background
    && cell.fg == Color.Named NamedColor.Foreground
    && !(Flags.intersects cell.flags
          (Flags.INVERSE ||| Flags.UNDERLINE ||| Flags.STRIKEOUT
            ||| Flags.WRAPLINE ||| Flags.WIDE_CHAR_SPACER))

end Cell

instance : GridCell Cell := ⟨Cell.is_empty⟩

/-- The legacy `Cell` of `src/src/term/cell.rs`: overflow is an optional
handle (`Option<NonzeroCharId>`, embedded as `Option Nat`) into the global
table, not an inline array. -/
structure LegacyCell where
  extra : Option Nat
  c : Char
  fg : Color
  bg : Color
  flags : Nat
  deriving DecidableEq, Repr

/-- `Cell::is_empty` for the legacy `Cell` (`src/src/term/cell.rs`,
lines 124–130): it checks only space (not tab), the absence of an overflow
handle, the default background, and the `INVERSE`/`UNDERLINE` flags. -/
def LegacyCell.is_empty (cell : LegacyCell) : Bool :=
  cell.c == ' '
    && cell.extra.isNone
    && cell.bg == Color.Named NamedColor.Background
    && !(Flags.intersects cell.flags (Flags.INVERSE ||| Flags.UNDERLINE))

/-- The cell-emptiness predicate exactly as the spec §4.2 words it: primary
code point space or tab, overflow sequence absent or empty (first slot of
the padded array is the padding value), background and foreground equal to
the default references, and none of inverse, underline, strikeout, wrap,
wide-char-spacer set. -/
def specCellEmpty (cell : Cell) : Prop :=
  (cell.c = ' ' ∨ cell.c = '\t')
    ∧ cell.extra.headD ' ' = ' '
    ∧ cell.bg = Color.Named NamedColor.Background
    ∧ cell.fg = Color.Named NamedColor.Foreground
    ∧ ¬ Flags.intersects cell.flags Flags.INVERSE
    ∧ ¬ Flags.intersects cell.flags Flags.UNDERLINE
    ∧ ¬ Flags.intersects cell.flags Flags.STRIKEOUT
    ∧ ¬ Flags.intersects cell.flags Flags.WRAPLINE
    ∧ ¬ Flags.intersects cell.flags Flags.WIDE_CHAR_SPACER

instance {cell : Cell} : Decidable (specCellEmpty cell) := by
  unfold specCellEmpty; infer_instance

/-- The spec §4.2 emptiness predicate transcribed for the legacy `Cell`
(overflow "absent" is `extra = none`). -/
def specLegacyCellEmpty (cell : LegacyCell) : Prop :=
  (cell.c = ' ' ∨ cell.c = '\t')
    ∧ cell.extra = none
    ∧ cell.bg = Color.Named NamedColor.Background
    ∧ cell.fg = Color.Named NamedColor.Foreground
    ∧ ¬ Flags.intersects cell.flags Flags.INVERSE
    ∧ ¬ Flags.intersects cell.flags Flags.UNDERLINE
    ∧ ¬ Flags.intersects cell.flags Flags.STRIKEOUT
    ∧ ¬ Flags.intersects cell.flags Flags.WRAPLINE
    ∧ ¬ Flags.intersects cell.flags Flags.WIDE_CHAR_SPACER

instance {cell : LegacyCell} : Decidable (specLegacyCellEmpty cell) := by
  unfold specLegacyCellEmpty; infer_instance

/-- Modelled from the spec: `Color::as_escape` lives in
`alacritty_terminal/src/ansi.rs`, which is not part of the provided
sources. Per spec §4.2 it is the color-diff routine of `renderEscape`:
when the color is unchanged from `last` it appends no bytes to the buffer;
when it differs it appends that color's SGR parameter bytes followed by a
`';'` separator (their exact values are unspecified here and irrelevant to
the properties proved below). -/
def Color.as_escape (c : Color) (buf : List Char) (last : Color) (fg : Bool) : List Char :=
  if c = last then buf
  else buf ++ (if fg then ['3', '8'] else ['4', '8']) ++ [';']

/-- Overwrite the final byte of the buffer
(`buf.as_bytes_mut()[buf.len() - 1] = b'm'`). -/
def setLastByte (l : List Char) (c : Char) : List Char :=
  l.take (l.length - 1) ++ [c]

/-- `Cell::as_escape(buf, last)` from
`src/alacritty_terminal/src/term/cell.rs`: push the CSI introducer, diff
foreground and background, then append attribute toggle codes for each
flag whose state changed; finally drop the introducer when nothing was
appended, else overwrite the trailing `';'` with `'m'`. -/
def Cell.as_escape (cell : Cell) (buf : List Char) (last : Cell) : List Char :=
  let buf := buf ++ [Char.ofNat 0x1b, '[']
  let empty_len := buf.length
  let buf := cell.fg.as_escape buf last.fg true
  let buf := cell.bg.as_escape buf last.bg false
  if cell.flags = last.flags then
    if buf.length = empty_len then buf.take (empty_len - 2)
    else setLastByte buf 'm'
  else
    let last_bold := Flags.hasAll last.flags Flags.BOLD
    let last_dim := Flags.hasAll last.flags Flags.DIM
    let bold := Flags.hasAll cell.flags Flags.BOLD
    let dim := Flags.hasAll cell.flags Flags.DIM
    let buf :=
      if last_bold ≠ bold ∨ last_dim ≠ dim then
        if !bold && !dim then buf ++ ['2', '2', ';']
        else if bold then buf ++ ['1', ';']
        else if dim then buf ++ ['2', ';']
        else buf
      else buf
    let last_italic := Flags.hasAll last.flags Flags.ITALIC
    let italic := Flags.hasAll cell.flags Flags.ITALIC
    let buf :=
      if italic ≠ last_italic then
        if italic then buf ++ ['3', ';']
        else if last_italic then buf ++ ['2', '3', ';']
        else buf
      else buf
    let last_underline := Flags.hasAll last.flags Flags.UNDERLINE
    let underline := Flags.hasAll cell.flags Flags.UNDERLINE
    let buf :=
      if underline ≠ last_underline then
        if underline then buf ++ ['4', ';']
        else if last_underline then buf ++ ['2', '4', ';']
        else buf
      else buf
    let last_inverse := Flags.hasAll last.flags Flags.INVERSE
    let inverse := Flags.hasAll cell.flags Flags.INVERSE
    let buf :=
      if inverse ≠ last_inverse then
        if inverse then buf ++ ['7', ';']
        else if last_inverse then buf ++ ['2', '7', ';']
        else buf
      else buf
    let last_hidden := Flags.hasAll last.flags Flags.HIDDEN
    let hidden := Flags.hasAll cell.flags Flags.HIDDEN
    let buf :=
      if hidden ≠ last_hidden then
        if hidden then buf ++ ['8', ';']
        else if last_hidden then buf ++ ['2', '8', ';']
        else buf
      else buf
    let last_strikeout := Flags.hasAll last.flags Flags.STRIKEOUT
    let strikeout := Flags.hasAll cell.flags Flags.STRIKEOUT
    let buf :=
      if strikeout ≠ last_strikeout then
        if strikeout then buf ++ ['9', ';']
        else if last_strikeout then buf ++ ['2', '9', ';']
        else buf
      else buf
    if buf.length = empty_len then buf.take (empty_len - 2)
    else setLastByte buf 'm'

/-! The global overflow table of `src/src/term/nonzero_chars.rs`
(`NONZERO_CHARS: BTreeMap<NonzeroCharId, Vec<char>>`). Only the key set
matters for the allocation policy, so the state is the `BTreeMap` key set
as a list in the ascending order its iterator produces. -/

/-- The scan loop of `NonzeroCharId::new`: starting from candidate 1, walk
the keys in ascending order while they match the candidate; `none` embeds
the "exceeded maximum zerowidth characters" panic at `u16::max_value()`. -/
def scanLowestId : Nat → List Nat → Option Nat
  | idx, [] => some idx
  | idx, k :: ks =>
    if k ≠ idx then some idx
    else if idx = 65535 then none
    else scanLowestId (idx + 1) ks

/-- `BTreeMap::insert` on the key set: keep the ascending order. -/
def insertKey (i : Nat) : List Nat → List Nat
  | [] => [i]
  | k :: ks => if i ≤ k then i :: k :: ks else k :: insertKey i ks

/-- `NonzeroCharId::new` (`src/src/term/nonzero_chars.rs`, lines 29–48):
scan for the lowest unused id starting at 1, then insert it with a fresh
empty sequence. -/
def nonzeroCharIdNew (keys : List Nat) : Option (Nat × List Nat) :=
  (scanLowestId 1 keys).map (fun i => (i, insertKey i keys))

/-- Outcome of dropping a `NonzeroCharId`: either the process aborts or
the table survives with some key set. -/
inductive DropOutcome where
  | aborted
  | removed (keys : List Nat)
  deriving DecidableEq, Repr

/-- `Drop for NonzeroCharId` as written (`src/src/term/nonzero_chars.rs`,
lines 65–72): the body begins with an unconditional panic, so the
`lock.remove(self)` below it is dead code and every drop aborts. -/
def nonzeroCharIdDrop (_keys : List Nat) (_id : Nat) : DropOutcome :=
  DropOutcome.aborted

/-- Modelled from the spec: the removal that `Drop for NonzeroCharId` was
meant to perform and that its dead code spells out (`lock.remove(self)`);
the spec says an entry is removed exactly when its owning cell's reference
is dropped. -/
def nonzeroCharIdRelease (keys : List Nat) (id : Nat) : List Nat :=
  keys.erase id

/-! The palette resolver `List` of `src/alacritty/src/display/color.rs`.
The two `[_; COUNT]` arrays are embedded as functions from the index
space; `Colors` is the resolved theme structure it consumes (spec §6). -/

/-- An `indexed_colors` entry of the theme: an absolute palette index
paired with a concrete color. -/
structure IndexedColor where
  index : Nat
  color : Rgb
  deriving DecidableEq, Repr

/-- The `primary` theme section (spec §6). -/
structure PrimaryColors where
  foreground : Rgb
  background : Rgb
  bright_foreground : Option Rgb
  dim_foreground : Option Rgb
  deriving DecidableEq, Repr

/-- One 8-color theme set (`normal`, `bright` or `dim`). -/
structure ColorSet where
  black : Rgb
  red : Rgb
  green : Rgb
  yellow : Rgb
  blue : Rgb
  magenta : Rgb
  cyan : Rgb
  white : Rgb
  deriving DecidableEq, Repr

/-- The resolved theme (`crate::config::color::Colors`) consumed by
`List::update_defaults` (spec §6). -/
structure Colors where
  primary : PrimaryColors
  normal : ColorSet
  bright : ColorSet
  dim : Option ColorSet
  indexed_colors : List IndexedColor
  deriving DecidableEq, Repr

/-- `DIM_FACTOR` scaling. Modelled from the spec: the `Rgb * f32`
implementation lives in `alacritty_terminal/src/term/color.rs`, which is
not part of the provided sources; the spec says each channel is scaled by
the fixed dim factor 0.66, embedded here as integer scaling by 66/100. -/
def Rgb.dimScale (c : Rgb) : Rgb :=
  ⟨c.r * 66 / 100, c.g * 66 / 100, c.b * 66 / 100⟩

/-- Modelled from the spec: the `as usize` discriminants of `NamedColor`
are declared in `ansi.rs`, which is not part of the provided sources.
Slots follow the spec §3 layout: 16 standard colors first, the color cube
at 16–231, the gray ramp at 232–255, and the semantic slots above 255. -/
def namedIndex : NamedColor → Nat
  | NamedColor.Black => 0
  | NamedColor.Red => 1
  | NamedColor.Green => 2
  | NamedColor.Yellow => 3
  | NamedColor.Blue => 4
  | NamedColor.Magenta => 5
  | NamedColor.Cyan => 6
  | NamedColor.White => 7
  | NamedColor.BrightBlack => 8
  | NamedColor.BrightRed => 9
  | NamedColor.BrightGreen => 10
  | NamedColor.BrightYellow => 11
  | NamedColor.BrightBlue => 12
  | NamedColor.BrightMagenta => 13
  | NamedColor.BrightCyan => 14
  | NamedColor.BrightWhite => 15
  | NamedColor.Foreground => 256
  | NamedColor.Background => 257
  | NamedColor.DimBlack => 258
  | NamedColor.DimRed => 259
  | NamedColor.DimGreen => 260
  | NamedColor.DimYellow => 261
  | NamedColor.DimBlue => 262
  | NamedColor.DimMagenta => 263
  | NamedColor.DimCyan => 264
  | NamedColor.DimWhite => 265
  | NamedColor.BrightForeground => 266
  | NamedColor.DimForeground => 267

/-- `List::fill_named`: write the 16 standard colors, the semantic
foreground/background slots, the bright-foreground fallback, and the dim
slots (explicit theme dim set when present, else `DIM_FACTOR`-scaled
normals). -/
def fill_named (d : Nat → Rgb) (colors : Colors) : Nat → Rgb :=
  let d := Function.update d (namedIndex NamedColor.Black) colors.normal.black
  let d := Function.update d (namedIndex NamedColor.Red) colors.normal.red
  let d := Function.update d (namedIndex NamedColor.Green) colors.normal.green
  let d := Function.update d (namedIndex NamedColor.Yellow) colors.normal.yellow
  let d := Function.update d (namedIndex NamedColor.Blue) colors.normal.blue
  let d := Function.update d (namedIndex NamedColor.Magenta) colors.normal.magenta
  let d := Function.update d (namedIndex NamedColor.Cyan) colors.normal.cyan
  let d := Function.update d (namedIndex NamedColor.White) colors.normal.white
  let d := Function.update d (namedIndex NamedColor.BrightBlack) colors.bright.black
  let d := Function.update d (namedIndex NamedColor.BrightRed) colors.bright.red
  let d := Function.update d (namedIndex NamedColor.BrightGreen) colors.bright.green
  let d := Function.update d (namedIndex NamedColor.BrightYellow) colors.bright.yellow
  let d := Function.update d (namedIndex NamedColor.BrightBlue) colors.bright.blue
  let d := Function.update d (namedIndex NamedColor.BrightMagenta) colors.bright.magenta
  let d := Function.update d (namedIndex NamedColor.BrightCyan) colors.bright.cyan
  let d := Function.update d (namedIndex NamedColor.BrightWhite) colors.bright.white
  let d := Function.update d (namedIndex NamedColor.BrightForeground)
    (colors.primary.bright_foreground.getD colors.primary.foreground)
  let d := Function.update d (namedIndex NamedColor.Foreground) colors.primary.foreground
  let d := Function.update d (namedIndex NamedColor.Background) colors.primary.background
  let d := Function.update d (namedIndex NamedColor.DimForeground)
    (colors.primary.dim_foreground.getD colors.primary.foreground.dimScale)
  match colors.dim with
  | some dim =>
    let d := Function.update d (namedIndex NamedColor.DimBlack) dim.black
    let d := Function.update d (namedIndex NamedColor.DimRed) dim.red
    let d := Function.update d (namedIndex NamedColor.DimGreen) dim.green
    let d := Function.update d (namedIndex NamedColor.DimYellow) dim.yellow
    let d := Function.update d (namedIndex NamedColor.DimBlue) dim.blue
    let d := Function.update d (namedIndex NamedColor.DimMagenta) dim.magenta
    let d := Function.update d (namedIndex NamedColor.DimCyan) dim.cyan
    Function.update d (namedIndex NamedColor.DimWhite) dim.white
  | none =>
    let d := Function.update d (namedIndex NamedColor.DimBlack) colors.normal.black.dimScale
    let d := Function.update d (namedIndex NamedColor.DimRed) colors.normal.red.dimScale
    let d := Function.update d (namedIndex NamedColor.DimGreen) colors.normal.green.dimScale
    let d := Function.update d (namedIndex NamedColor.DimYellow) colors.normal.yellow.dimScale
    let d := Function.update d (namedIndex NamedColor.DimBlue) colors.normal.blue.dimScale
    let d := Function.update d (namedIndex NamedColor.DimMagenta) colors.normal.magenta.dimScale
    let d := Function.update d (namedIndex NamedColor.DimCyan) colors.normal.cyan.dimScale
    Function.update d (namedIndex NamedColor.DimWhite) colors.normal.white.dimScale

/-- One cube entry: the theme's `indexed_colors` override for the absolute
index when present, else the channel formula `0` at level 0 and
`level * 40 + 55` otherwise. -/
def cubeEntry (colors : Colors) (index r g b : Nat) : Rgb :=
  match colors.indexed_colors.find? (fun ic => ic.index = index) with
  | some ic => ic.color
  | none =>
    { r := if r = 0 then 0 else r * 40 + 55,
      g := if g = 0 then 0 else g * 40 + 55,
      b := if b = 0 then 0 else b * 40 + 55 }

/-- `List::fill_cube`: three nested 6-level loops; the running `index`
starts at 16 and increments per innermost iteration, so it equals
`16 + 36*r + 6*g + b`. -/
def fill_cube (d : Nat → Rgb) (colors : Colors) : Nat → Rgb :=
  (List.range 6).foldl (fun d r =>
    (List.range 6).foldl (fun d g =>
      (List.range 6).foldl (fun d b =>
        Function.update d (16 + 36 * r + 6 * g + b)
          (cubeEntry colors (16 + 36 * r + 6 * g + b) r g b)) d) d) d

/-- `List::fill_gray_ramp`: 24 entries at absolute indices `16 + 216 + i`,
each the theme override when present, else gray value `i * 10 + 8`. -/
def fill_gray_ramp (d : Nat → Rgb) (colors : Colors) : Nat → Rgb :=
  (List.range 24).foldl (fun d i =>
    match colors.indexed_colors.find? (fun ic => ic.index = 16 + 216 + i) with
    | some ic => Function.update d (232 + i) ic.color
    | none => Function.update d (232 + i) ⟨i * 10 + 8, i * 10 + 8, i * 10 + 8⟩) d

/-- The palette `List` of `src/alacritty/src/display/color.rs`: the sparse
override layer `active` over the recomputed `default` layer. -/
structure ColorList where
  active : Nat → Option Rgb
  defaults : Nat → Rgb

namespace ColorList

/-- `List::get(index)`: `self.active[index].as_ref().unwrap_or(&self.default[index])`. -/
def get (l : ColorList) (index : Nat) : Rgb :=
  (l.active index).getD (l.defaults index)

/-- `List::get_modified(index)`. -/
def get_modified (l : ColorList) (index : Nat) : Option Rgb :=
  l.active index

/-- `List::set(index, color)`. -/
def set (l : ColorList) (index : Nat) (color : Rgb) : ColorList :=
  { l with active := Function.update l.active index (some color) }

/-- `List::reset(index)`. -/
def reset (l : ColorList) (index : Nat) : ColorList :=
  { l with active := Function.update l.active index none }

/-- `List::update_defaults(colors)`: recompute the default layer with the
three fill passes; the override layer is untouched. -/
def update_defaults (l : ColorList) (colors : Colors) : ColorList :=
  { l with defaults := fill_gray_ramp (fill_cube (fill_named l.defaults colors) colors) colors }

end ColorList

/-! The `FairMutex` of `src/alacritty_terminal/src/sync.rs`. In this tree
the struct holds only the `data: Mutex<T>` field and `lock()` is a bare
`self.data.lock()`, although its own doc comment says it "uses an extra
lock to ensure that if one thread is waiting that it will get the lock
before a single thread can re-lock it". The acquisition steps `lock()`
performs are recorded as an operation list, and lock ordering is analysed
over event traces of the underlying `parking_lot::Mutex`, which provides
mutual exclusion but no arrival-order guarantee (barging is allowed). -/

/-- One acquisition step of a `lock()` call. -/
inductive LockOp where
  | acquireData
  | acquireGate
  | releaseGate
  deriving DecidableEq, Repr

/-- The steps `FairMutex::lock` performs in this tree: only the primary
`data` acquisition. -/
def fairMutexLockOps : List LockOp :=
  [LockOp.acquireData]

/-- Modelled from the spec: the gating pattern spec §5 (and the struct's
own doc comment) describes — a secondary gating acquisition taken and
released around every primary acquisition. -/
def specFairLockOps : List LockOp :=
  [LockOp.acquireGate, LockOp.acquireData, LockOp.releaseGate]

/-- An event of a mutex trace: a thread requesting the lock, acquiring
it, or releasing it. -/
inductive MutexEvent where
  | request (t : Nat)
  | acquire (t : Nat)
  | release (t : Nat)
  deriving DecidableEq, Repr

/-- Trace validity for the bare `parking_lot::Mutex` that
`FairMutex::lock` delegates to: an acquisition needs the mutex free and
the thread pending, but any pending thread may win — the primitive makes
no arrival-order guarantee. -/
def mutexValid : Option Nat → List Nat → List MutexEvent → Bool
  | _, _, [] => true
  | held, pending, MutexEvent.request t :: tr => mutexValid held (pending ++ [t]) tr
  | none, pending, MutexEvent.acquire t :: tr =>
    pending.contains t && mutexValid (some t) (pending.erase t) tr
  | some _, _, MutexEvent.acquire _ :: _ => false
  | some h, pending, MutexEvent.release t :: tr => h == t && mutexValid none pending tr
  | none, _, MutexEvent.release _ :: _ => false

/-- The pending-request set left after processing a trace prefix. -/
def pendingAfter (pending : List Nat) : List MutexEvent → List Nat
  | [] => pending
  | MutexEvent.request t :: tr => pendingAfter (pending ++ [t]) tr
  | MutexEvent.acquire t :: tr => pendingAfter (pending.erase t) tr
  | MutexEvent.release _ :: tr => pendingAfter pending tr

/-- The fairness guarantee the spec claims of `FairMutex`: in every valid
trace, when thread `a` releases while thread `b` is pending and then `a`
re-acquires, `b` has acquired somewhere in between. -/
def FairnessGuarantee : Prop :=
  ∀ (pre mid post : List MutexEvent) (a b : Nat),
    mutexValid none []
      (pre ++ [MutexEvent.release a] ++ mid ++ [MutexEvent.acquire a] ++ post) = true →
    b ∈ pendingAfter [] pre →
    b ≠ a →
    MutexEvent.acquire b ∈ mid

/-- A barging trace: thread 0 holds the lock, thread 1 requests it, then
thread 0 releases, immediately re-requests and re-acquires. -/
def bargeTrace : List MutexEvent :=
  [MutexEvent.request 0, MutexEvent.acquire 0, MutexEvent.request 1,
   MutexEvent.release 0, MutexEvent.request 0, MutexEvent.acquire 0]

/-- Trailing-cell trimming as the spec §4.1 words it: remove from the end
of the list the cells satisfying `p`, down to (and keeping) the last cell
that does not satisfy it. -/
def trimTrailing {T : Type} (p : T → Bool) (l : List T) : List T :=
  (l.reverse.dropWhile p).reverse

/-- One grow-or-shrink step of a resize sequence (spec §8: "before and
after any grow/shrink sequence"). -/
inductive GSOp where
  | growTo (n : Nat)
  | shrinkTo (n : Nat)
  deriving DecidableEq, Repr

/-- The column count a grow/shrink step sets. -/
def GSOp.arg : GSOp → Nat
  | GSOp.growTo n => n
  | GSOp.shrinkTo n => n

/-- Run a sequence of grow/shrink steps over a row. -/
def applyGS {T : Type} [GridCell T] (row : Row T) : List GSOp → Row T
  | [] => row
  | GSOp.growTo n :: ops => applyGS (row.grow n) ops
  | GSOp.shrinkTo n :: ops => applyGS (row.shrink n).1 ops

/-! ### Helper lemmas -/

theorem lor_eq_zero_iff (a b : Nat) : a ||| b = 0 ↔ a = 0 ∧ b = 0 := by
  constructor
  · intro h
    refine ⟨Nat.eq_of_testBit_eq fun i => ?_, Nat.eq_of_testBit_eq fun i => ?_⟩ <;>
      · have hb := congrArg (fun n => Nat.testBit n i) h
        simp [Nat.testBit_lor] at hb
        simp [hb]
  · rintro ⟨rfl, rfl⟩
    rfl

theorem intersects_lor (f a b : Nat) :
    Flags.intersects f (a ||| b) = (Flags.intersects f a || Flags.intersects f b) := by
  unfold Flags.intersects
  rw [Nat.and_or_distrib_left]
  by_cases ha : f &&& a = 0 <;> by_cases hb : f &&& b = 0 <;>
    simp [ha, hb, lor_eq_zero_iff]

theorem Row.fill_columns {T : Type} (row : Row T) (s : Nat) :
    (row.fill s).columns = row.columns := by
  unfold Row.fill
  split <;> rfl

theorem Row.fill_template {T : Type} (row : Row T) (s : Nat) :
    (row.fill s).template = row.template := by
  unfold Row.fill
  split <;> rfl

theorem Row.fill_length_ge {T : Type} (row : Row T) (s : Nat) (h : s ≤ row.columns) :
    s ≤ (row.fill s).inner.length := by
  unfold Row.fill
  split
  · next hc =>
      simp only [List.length_append, List.length_replicate]
      omega
  · next hc =>
      by_cases hl : row.inner.length < s
      · exact absurd ⟨hl, h⟩ hc
      · omega

theorem Row.fill_eq_of_gt {T : Type} (row : Row T) (s : Nat) (h : row.columns < s) :
    row.fill s = row := by
  unfold Row.fill
  rw [if_neg]
  rintro ⟨-, h2⟩
  omega

theorem Row.fill_inv {T : Type} (row : Row T) (s : Nat) (h : row.Inv) :
    (row.fill s).Inv := by
  unfold Row.fill Row.Inv at *
  split
  · next hc =>
      simp only [List.length_append, List.length_replicate]
      omega
  · exact h

theorem take_rpositionEnd {T : Type} (p : T → Bool) (l : List T) :
    l.take (Row.rpositionEnd p l) = trimTrailing p l := by
  induction l using List.reverseRecOn with
  | nil => rfl
  | append_singleton xs x ih =>
      unfold Row.rpositionEnd trimTrailing
      rw [List.reverse_append]
      simp only [List.reverse_cons, List.reverse_nil, List.nil_append, List.singleton_append]
      rw [List.findIdx?_cons, List.dropWhile_cons]
      by_cases hx : p x
      · simp only [hx, Bool.not_true, Bool.false_eq_true, if_false, ite_false]
        rw [show (0 + 1 : Nat) = 0 + 1 from rfl, List.findIdx?_succ]
        cases hfi : List.findIdx? (fun c => !p c) xs.reverse with
        | none =>
            simp only [hfi, Option.map_none']
            have hall : ∀ c ∈ xs.reverse, p c = true := by
              intro c hc
              have := (List.findIdx?_eq_none_iff).mp hfi c hc
              simpa using this
            rw [List.dropWhile_eq_nil_iff.mpr hall]
            rfl
        | some j =>
            simp only [hfi, Option.map_some']
            have hj : j < xs.length := by
              have := (List.findIdx?_eq_some_iff_findIdx_eq).mp hfi
              simpa using this.1
            have hlen : (xs ++ [x]).length - (j + 1) = xs.length - j := by
              simp only [List.length_append, List.length_singleton]
              omega
            rw [hlen]
            rw [List.take_append_eq_append_take]
            have hle : xs.length - j ≤ xs.length := Nat.sub_le _ _
            rw [Nat.sub_eq_zero_of_le hle]
            simp only [List.take_zero, List.append_nil]
            have hxs := ih
            unfold Row.rpositionEnd trimTrailing at hxs
            rw [hfi] at hxs
            exact hxs
      · have hx' : p x = false := by
          cases hpx : p x
          · rfl
          · exact absurd hpx hx
        simp only [hx', Bool.not_false, if_true, ite_true, if_false, ite_false]
        have hlen : (xs ++ [x]).length - 0 = (xs ++ [x]).length := rfl
        rw [hlen, List.take_length]
        simp

theorem applyGS_append {T : Type} [GridCell T] (row : Row T) (ops ops' : List GSOp) :
    applyGS row (ops ++ ops') = applyGS (applyGS row ops) ops' := by
  induction ops generalizing row with
  | nil => rfl
  | cons op ops ih => cases op <;> simp [applyGS, ih]

theorem foldl_update_defaults_active (l : ColorList) (cs : List Colors) :
    (cs.foldl ColorList.update_defaults l).active = l.active := by
  induction cs generalizing l with
  | nil => rfl
  | cons c cs ih => simpa [ColorList.update_defaults] using ih (l.update_defaults c)

/-! ### Claim theorems -/

/-- C2 counterexample: `front_split_off` called with a split point beyond
the current logical length does not surface a recoverable failure — it
takes the panicking path (embedded as `none`), exactly as its own
`# Panics` doc comment says, so the claimed `InvalidSplitPoint` condition
is never produced: on a row of 2 columns split at 3 the call aborts. -/
theorem front_split_off_beyond_len_aborts :
    Row.front_split_off (Row.new 2 Cell.default) 3 = none := by
  rfl

/-- C2 amended: if `at ≤ columns`, `front_split_off(at)` materializes
storage up to `min(columns, at)`, decreases `columns` by `at`, returns the
first `at` cells, and the remainder becomes the new backing storage; if
`at > columns` the call panics (the process aborts) rather than returning
a recoverable `InvalidSplitPoint` failure. -/
theorem front_split_off_spec {T : Type} (row : Row T) (a : Nat) :
    (a ≤ row.columns →
      row.front_split_off a =
        some ({ inner := (row.fill (min row.columns a)).inner.drop a,
                columns := row.columns - a,
                template := row.template },
              (row.fill (min row.columns a)).inner.take a))
    ∧ (row.columns < a → row.front_split_off a = none) := by
  constructor
  · intro h
    have hmin : min row.columns a = a := Nat.min_eq_right h
    unfold Row.front_split_off
    rw [if_pos (by rw [Row.fill_columns]; exact h)]
    rw [if_pos]
    · rw [Row.fill_columns, Row.fill_template]
    · rw [hmin]
      exact Row.fill_length_ge row a h
  · intro h
    unfold Row.front_split_off
    rw [if_neg]
    rw [Row.fill_columns]
    omega

/-- C2 amended, witnessed at a row of 3 columns, one materialized cell,
split point 2. -/
theorem front_split_off_spec_witness :
    2 ≤ (Row.from_vec [Cell.default] Cell.default 3).columns
    ∧ Row.front_split_off (Row.from_vec [Cell.default] Cell.default 3) 2 =
        some ({ inner := ((Row.from_vec [Cell.default] Cell.default 3).fill
                  (min (Row.from_vec [Cell.default] Cell.default 3).columns 2)).inner.drop 2,
                columns := (Row.from_vec [Cell.default] Cell.default 3).columns - 2,
                template := (Row.from_vec [Cell.default] Cell.default 3).template },
              ((Row.from_vec [Cell.default] Cell.default 3).fill
                  (min (Row.from_vec [Cell.default] Cell.default 3).columns 2)).inner.take 2) :=
  ⟨by decide, (front_split_off_spec (Row.from_vec [Cell.default] Cell.default 3) 2).1 (by decide)⟩

/-- C3: `shrink(newColumns)` sets `columns = newColumns`; when the backing
length is already within the new width nothing is removed and the backing
storage is untouched; otherwise the backing storage is split at
`newColumns` and the removed suffix, trimmed of its trailing empty cells
down to the last non-empty cell, is returned exactly when non-empty. -/
theorem shrink_spec {T : Type} [GridCell T] (row : Row T) (cols : Nat) :
    (row.shrink cols).1.columns = cols
    ∧ (row.inner.length ≤ cols →
        row.shrink cols = ({ row with columns := cols }, none))
    ∧ (cols < row.inner.length →
        (row.shrink cols).1 = { row with columns := cols, inner := row.inner.take cols }
        ∧ (row.shrink cols).2 =
            (if (trimTrailing cellIsEmpty (row.inner.drop cols)).isEmpty then none
             else some (trimTrailing cellIsEmpty (row.inner.drop cols)))) := by
  refine ⟨?_, ?_, ?_⟩
  · unfold Row.shrink
    dsimp only
    split
    · rfl
    · split <;> rfl
  · intro h
    unfold Row.shrink
    dsimp only
    rw [if_pos h]
  · intro h
    have hn : ¬ row.inner.length ≤ cols := by omega
    unfold Row.shrink
    dsimp only
    rw [if_neg hn, take_rpositionEnd]
    constructor
    · split <;> rfl
    · split
      · rfl
      · rfl

/-- C3, witnessed at the spec §8 scenario: 10 columns, column 5 holds a
non-space code point, shrunk to 6 and then to 3. -/
theorem shrink_spec_witness :
    (3 < (Row.from_vec
        [Cell.default, Cell.default, Cell.default, Cell.default, Cell.default,
         Cell.new 'a' (Color.Named NamedColor.Foreground) (Color.Named NamedColor.Background)]
        Cell.default 6).inner.length
      ∧ ((Row.from_vec
        [Cell.default, Cell.default, Cell.default, Cell.default, Cell.default,
         Cell.new 'a' (Color.Named NamedColor.Foreground) (Color.Named NamedColor.Background)]
        Cell.default 6).shrink 3).2 =
          (if (trimTrailing cellIsEmpty ((Row.from_vec
              [Cell.default, Cell.default, Cell.default, Cell.default, Cell.default,
               Cell.new 'a' (Color.Named NamedColor.Foreground) (Color.Named NamedColor.Background)]
              Cell.default 6).inner.drop 3)).isEmpty then none
           else some (trimTrailing cellIsEmpty ((Row.from_vec
              [Cell.default, Cell.default, Cell.default, Cell.default, Cell.default,
               Cell.new 'a' (Color.Named NamedColor.Foreground) (Color.Named NamedColor.Background)]
              Cell.default 6).inner.drop 3)))) :=
  ⟨by decide,
   ((shrink_spec (Row.from_vec
        [Cell.default, Cell.default, Cell.default, Cell.default, Cell.default,
         Cell.new 'a' (Color.Named NamedColor.Foreground) (Color.Named NamedColor.Background)]
        Cell.default 6) 3).2.2 (by decide)).2⟩

/-- C4: `len()` returns the logical column count: it equals the count set
at creation, is unchanged by materialization (`fill`, mutable indexing),
and after any grow/shrink sequence equals the argument of the most recent
grow or shrink. -/
theorem len_spec {T : Type} [GridCell T] (c : Nat) (t : T) (row : Row T)
    (ops : List GSOp) (op : GSOp) (s i : Nat) :
    (Row.new c t).len = c
    ∧ row.len = row.columns
    ∧ (row.fill s).len = row.len
    ∧ (∀ row', row.index_mut i = some row' → row'.len = row.len)
    ∧ (applyGS row (ops ++ [op])).len = op.arg := by
  refine ⟨rfl, rfl, Row.fill_columns row s, ?_, ?_⟩
  · intro row' h
    unfold Row.index_mut at h
    dsimp only at h
    split at h
    · cases h
      exact Row.fill_columns row (i + 1)
    · cases h
  · rw [applyGS_append]
    cases op with
    | growTo n => rfl
    | shrinkTo n => exact (shrink_spec (applyGS row ops) n).1

/-- C4, witnessed at a fresh 4-column row grown to 7 then shrunk to 2. -/
theorem len_spec_witness :
    (Row.new 4 Cell.default).len = 4
    ∧ ((Row.new 4 Cell.default).index_mut 1 = some ((Row.new 4 Cell.default).fill 2) →
        ((Row.new 4 Cell.default).fill 2).len = (Row.new 4 Cell.default).len)
    ∧ (applyGS (Row.new 4 Cell.default) ([GSOp.growTo 7] ++ [GSOp.shrinkTo 2])).len =
        (GSOp.shrinkTo 2).arg :=
  ⟨(len_spec 4 Cell.default (Row.new 4 Cell.default) [] (GSOp.growTo 0) 0 0).1,
   fun h => (len_spec 4 Cell.default (Row.new 4 Cell.default)
      [] (GSOp.growTo 0) 0 1).2.2.2.1 _ h,
   (len_spec 4 Cell.default (Row.new 4 Cell.default)
      [GSOp.growTo 7] (GSOp.shrinkTo 2) 0 0).2.2.2.2⟩

/-- C5: every `Row` operation — creation, shrink, grow (to a width at
least the current one, per its contract), reset, resetFrom, fill,
frontSplitOff, append, appendFront and mutable indexing — preserves the
invariant that the backing-storage length is at most the logical column
count. -/
theorem row_inv_spec {T : Type} [GridCell T] (c s a i cols : Nat) (t : T)
    (vec : List T) (row : Row T) (hrow : row.Inv) :
    (Row.new c t).Inv
    ∧ ((row.shrink cols).1).Inv
    ∧ (row.columns ≤ cols → (row.grow cols).Inv)
    ∧ ((row.reset t)).Inv
    ∧ ((row.reset_from a t)).Inv
    ∧ ((row.fill s)).Inv
    ∧ (∀ row' ret, row.front_split_off a = some (row', ret) → row'.Inv)
    ∧ ((row.append vec)).Inv
    ∧ ((row.append_front vec)).Inv
    ∧ (∀ row', row.index_mut i = some row' → row'.Inv) := by
  unfold Row.Inv at hrow
  refine ⟨?_, ?_, ?_, ?_, ?_, Row.fill_inv row s hrow, ?_, ?_, ?_, ?_⟩
  · simp [Row.new, Row.Inv]
  · unfold Row.shrink Row.Inv
    dsimp only
    split
    · next hle => exact hle
    · next hgt =>
        split <;>
          · dsimp only
            rw [List.length_take]
            omega
  · intro h
    unfold Row.grow Row.Inv
    dsimp only
    omega
  · simp [Row.reset, Row.Inv]
  · unfold Row.reset_from Row.Inv
    dsimp only
    rw [List.length_take]
    omega
  · intro row' ret h
    unfold Row.front_split_off at h
    dsimp only at h
    split at h
    · next hle =>
        split at h
        · next hlen =>
            cases h
            unfold Row.Inv
            dsimp only
            rw [List.length_drop]
            have hfi : (row.fill (min row.columns a)).inner.length ≤
                (row.fill (min row.columns a)).columns :=
              Row.fill_inv row (min row.columns a) hrow
            rw [Row.fill_columns] at hle hfi ⊢
            omega
        · cases h
    · cases h
  · unfold Row.append Row.Inv
    dsimp only
    exact Nat.le_max_left _ _
  · unfold Row.append_front Row.Inv
    dsimp only
    exact Nat.le_max_left _ _
  · intro row' h
    unfold Row.index_mut at h
    dsimp only at h
    split at h
    · cases h
      exact Row.fill_inv row (i + 1) hrow
    · cases h

/-- C5, witnessed at a 3-column row with one materialized cell. -/
theorem row_inv_spec_witness :
    (Row.from_vec [Cell.default] Cell.default 3).Inv
    ∧ ((Row.from_vec [Cell.default] Cell.default 3).shrink 2).1.Inv
    ∧ ((Row.from_vec [Cell.default] Cell.default 3).append [Cell.default]).Inv :=
  ⟨by decide,
   (row_inv_spec 1 2 1 0 2 Cell.default [Cell.default]
      (Row.from_vec [Cell.default] Cell.default 3) (by decide)).2.1,
   (row_inv_spec 1 2 1 0 2 Cell.default [Cell.default]
      (Row.from_vec [Cell.default] Cell.default 3) (by decide)).2.2.2.2.2.2.2.1⟩

/-- C10: on a row whose logical width exceeds `i`, mutable indexing first
materializes template cells so the backing length reaches at least `i + 1`
and the backing-array access is in bounds; at `i ≥ columns` (under the
storage invariant) the fill leaves the storage untouched and the access is
out of bounds (embedded as `none`); read indexing instead returns the
template for every index at or beyond the backing length. -/
theorem index_mut_spec {T : Type} (row : Row T) (i : Nat) :
    (i < row.columns →
      row.index_mut i = some (row.fill (i + 1))
        ∧ i + 1 ≤ (row.fill (i + 1)).inner.length
        ∧ (row.fill (i + 1)).columns = row.columns)
    ∧ (row.Inv → row.columns ≤ i → row.index_mut i = none ∧ row.fill (i + 1) = row)
    ∧ (row.inner.length ≤ i → row.index i = row.template) := by
  refine ⟨?_, ?_, ?_⟩
  · intro h
    have hlen : i + 1 ≤ (row.fill (i + 1)).inner.length :=
      Row.fill_length_ge row (i + 1) (by omega)
    refine ⟨?_, hlen, Row.fill_columns row (i + 1)⟩
    unfold Row.index_mut
    dsimp only
    rw [if_pos (by omega)]
  · intro hrow h
    unfold Row.Inv at hrow
    have hfill : row.fill (i + 1) = row := Row.fill_eq_of_gt row (i + 1) (by omega)
    refine ⟨?_, hfill⟩
    unfold Row.index_mut
    dsimp only
    rw [hfill, if_neg (by omega)]
  · intro h
    exact List.getD_eq_default _ _ h

/-- C10, witnessed at a fresh 5-column row indexed mutably at 2 and read
at 4. -/
theorem index_mut_spec_witness :
    (2 < (Row.new 5 Cell.default).columns
      ∧ (Row.new 5 Cell.default).index_mut 2 = some ((Row.new 5 Cell.default).fill 3))
    ∧ ((Row.new 5 Cell.default).inner.length ≤ 4
      ∧ (Row.new 5 Cell.default).index 4 = (Row.new 5 Cell.default).template) :=
  ⟨⟨by decide, ((index_mut_spec (Row.new 5 Cell.default) 2).1 (by decide)).1⟩,
   ⟨by decide, (index_mut_spec (Row.new 5 Cell.default) 4).2.2 (by decide)⟩⟩

/-- C6 counterexample: for the legacy `Cell` of `src/src/term/cell.rs`,
`is_empty` is not the claimed predicate — a blank cell whose foreground is
a non-default concrete color is reported empty although the claim requires
the foreground to equal the default foreground reference. -/
theorem legacy_is_empty_not_spec :
    LegacyCell.is_empty
        { extra := none, c := ' ', fg := Color.Spec ⟨255, 0, 0⟩,
          bg := Color.Named NamedColor.Background, flags := 0 } = true
    ∧ ¬ specLegacyCellEmpty
        { extra := none, c := ' ', fg := Color.Spec ⟨255, 0, 0⟩,
          bg := Color.Named NamedColor.Background, flags := 0 } := by
  constructor
  · decide
  · decide

/-- C6 amended: for the current `Cell`
(`src/alacritty_terminal/src/term/cell.rs`), `is_empty()` returns true iff
the primary code point is space or tab, the overflow sequence is absent or
empty, the background equals the default background reference, the
foreground equals the default foreground reference, and none of the flags
inverse, underline, strikeout, wrap, wide-char-spacer is set; the legacy
`Cell` instead checks only space, absence of an overflow handle, the
default background, and the inverse/underline flags. -/
theorem cell_is_empty_iff (cell : Cell) :
    cell.is_empty = true ↔ specCellEmpty cell := by
  unfold Cell.is_empty specCellEmpty
  simp only [intersects_lor, Bool.or_eq_true, Bool.and_eq_true, Bool.not_eq_true',
    Bool.or_eq_false_iff, beq_iff_eq, Bool.not_eq_true]
  tauto

/-- C7: the allocator scan of `NonzeroCharId::new` hands out the lowest
unused handle — three allocations from an empty table give the distinct
handles 1, 2, 3 — but the code's `Drop` implementation starts with an
unconditional panic, so dropping the second handle aborts the process and
never removes the entry; only the removal the dead code (and the spec)
intends makes the next allocation return the released handle 2. -/
theorem nonzero_handle_lifecycle :
    nonzeroCharIdNew [] = some (1, [1])
    ∧ nonzeroCharIdNew [1] = some (2, [1, 2])
    ∧ nonzeroCharIdNew [1, 2] = some (3, [1, 2, 3])
    ∧ nonzeroCharIdDrop [1, 2, 3] 2 = DropOutcome.aborted
    ∧ nonzeroCharIdRelease [1, 2, 3] 2 = [1, 3]
    ∧ nonzeroCharIdNew [1, 3] = some (2, [1, 2, 3]) := by
  decide

/-- C8: an override set with `set(i, C)` is returned by `get(i)` and
persists across any number of `update_defaults` theme reloads; after a
subsequent `reset(i)`, `get(i)` returns exactly the default the most
recent `update_defaults` computed for `i` (the three fill passes applied
to the then-current default layer). -/
theorem palette_override_spec (l : ColorList) (i : Nat) (c : Rgb)
    (cs : List Colors) (clast : Colors) :
    (cs.foldl ColorList.update_defaults (l.set i c)).get i = c
    ∧ ((((cs.foldl ColorList.update_defaults (l.set i c)).update_defaults clast).reset i).get i
        = fill_gray_ramp (fill_cube (fill_named
            (cs.foldl ColorList.update_defaults (l.set i c)).defaults clast) clast) clast i) := by
  constructor
  · unfold ColorList.get
    rw [foldl_update_defaults_active]
    unfold ColorList.set
    dsimp only
    rw [Function.update_same]
    rfl
  · unfold ColorList.get ColorList.reset ColorList.update_defaults
    dsimp only
    rw [Function.update_same]
    rfl

/-- C9: diffing a cell against a `last` cell with identical foreground,
identical background and identical flags appends nothing — the
provisional CSI introducer is removed and the buffer is returned
unchanged. -/
theorem as_escape_identical (buf : List Char) (cell last : Cell)
    (hfg : cell.fg = last.fg) (hbg : cell.bg = last.bg)
    (hflags : cell.flags = last.flags) :
    cell.as_escape buf last = buf := by
  unfold Cell.as_escape Color.as_escape
  rw [hfg, hbg, hflags]
  simp [List.take_left]

/-- C9, witnessed by diffing the default cell against itself. -/
theorem as_escape_identical_witness :
    Cell.default.fg = Cell.default.fg
    ∧ Cell.default.bg = Cell.default.bg
    ∧ Cell.default.flags = Cell.default.flags
    ∧ Cell.as_escape Cell.default ['x'] Cell.default = ['x'] :=
  ⟨rfl, rfl, rfl, as_escape_identical ['x'] Cell.default Cell.default rfl rfl rfl⟩

/-- C1: `FairMutex::lock` in this tree performs no secondary gating
acquisition (contradicting the struct's own doc comment), and the bare
mutex it delegates to allows barging, so the claimed fairness guarantee
fails: in the valid trace `bargeTrace`, thread 0 releases while thread 1
is waiting and then re-requests and re-acquires before thread 1 ever
acquires. -/
theorem fairmutex_no_gate_unfair :
    LockOp.acquireGate ∉ fairMutexLockOps
    ∧ mutexValid none [] bargeTrace = true
    ∧ ¬ FairnessGuarantee := by
  refine ⟨by decide, by decide, ?_⟩
  intro h
  have hmem := h [MutexEvent.request 0, MutexEvent.acquire 0, MutexEvent.request 1]
    [MutexEvent.request 0] [] 0 1 (by decide) (by decide) (by decide)
  exact absurd hmem (by decide)

end Alacritty
